import Mathlib

/-!
Verification development for `git_mediate.py` (the git-mediate repository).

The program is a diagnostic tool that predicts which commits on a target
branch cause merge conflicts with a source branch.  All interaction with
git happens through textual subprocess calls; we model those calls with an
`Oracle` record whose fields hold the raw results (return code, stdout,
stderr) of each external command, and translate every Python function of
`src/git_mediate.py` into a Lean function over that oracle.

Python string primitives (`strip`, `split`, `splitlines`, `in`,
`startswith`, slicing) are modelled by executable helpers over `List Char`
so that concrete runs can be evaluated by `decide`.  Python `set`s of
commit hashes are modelled as `Finset String` (only membership of these
sets is observable downstream), and Python dicts that the code builds by
insertion are modelled as association lists in insertion order.
-/

namespace GitMediate

/-- Python whitespace characters: the characters `str.strip()` and
`str.split()` treat as separators (ASCII subset, which is all the
program ever meets). -/
def isPySpace (c : Char) : Bool :=
  c = ' ' || c = '\t' || c = '\n' || c = '\r' || c = '\x0b' || c = '\x0c'

/-- Python `s.strip()`: remove leading and trailing whitespace. -/
def pyStrip (s : String) : String :=
  (((s.toList.dropWhile isPySpace).reverse.dropWhile isPySpace).reverse).asString

/-- Split a character list at every occurrence of `sep`, keeping empty
pieces (the semantics of Python `str.split(sep)` for a one-character
separator). -/
def charSplitOn (sep : Char) : List Char → List (List Char)
  | [] => [[]]
  | c :: rest =>
    if c = sep then [] :: charSplitOn sep rest
    else
      match charSplitOn sep rest with
      | [] => [[c]]
      | g :: gs => (c :: g) :: gs

/-- Python `s.splitlines()` for text whose only line terminator is `\n`
(subprocess output with `text=True` has universal-newline translation
applied, so this is the shape the program consumes): split on `\n` and
drop the piece after a trailing newline. -/
def pySplitlines (s : String) : List String :=
  let parts := (charSplitOn '\n' s.toList).map List.asString
  if parts.getLast? = some "" then parts.dropLast else parts

/-- Helper for `pySplitWs`: accumulate the current token (reversed) while
scanning. -/
def wsTokensAux : List Char → List Char → List (List Char)
  | cur, [] => if cur = [] then [] else [cur.reverse]
  | cur, c :: rest =>
    if isPySpace c then
      if cur = [] then wsTokensAux [] rest else cur.reverse :: wsTokensAux [] rest
    else wsTokensAux (c :: cur) rest

/-- Python `s.split()` with no arguments: split on runs of whitespace and
discard empty tokens. -/
def pySplitWs (s : String) : List String :=
  (wsTokensAux [] s.toList).map List.asString

/-- Containment of `sub` as a contiguous sublist of `s` (executable). -/
def listContainsSub (sub : List Char) : List Char → Bool
  | [] => sub.isPrefixOf []
  | c :: rest => sub.isPrefixOf (c :: rest) || listContainsSub sub rest

/-- Python `sub in s`: substring containment. -/
def pyContains (s sub : String) : Bool :=
  listContainsSub sub.toList s.toList

/-- Python `s.startswith(pre)`. -/
def pyStartsWith (s pre : String) : Bool :=
  pre.toList.isPrefixOf s.toList

/-- Python `s[n:]` for a nonnegative `n`. -/
def pyDrop (n : Nat) (s : String) : String :=
  (s.toList.drop n).asString

/-- Python `s.lower()` (ASCII, which covers every string the program
lowercases). -/
def pyLower (s : String) : String :=
  (s.toList.map Char.toLower).asString

/-- Core of Python `s.split(sep)` for a separator with head `s0` and tail
`sr` (hence nonempty): scan left to right, breaking at each non-overlapping
occurrence of the separator.  `acc` holds the current piece reversed.
`fuel` only drives structural recursion; one unit is spent per character,
so any `fuel ≥ length` gives the scan's value. -/
def splitSubCore (s0 : Char) (sr : List Char) : ℕ → List Char → List Char → List (List Char)
  | _, acc, [] => [acc.reverse]
  | 0, acc, l => [acc.reverse ++ l]
  | fuel + 1, acc, c :: rest =>
    if (s0 :: sr).isPrefixOf (c :: rest) then
      acc.reverse :: splitSubCore s0 sr fuel [] (rest.drop sr.length)
    else
      splitSubCore s0 sr fuel (c :: acc) rest

/-- Core of Python `s.count(sep)` for a nonempty separator: number of
non-overlapping occurrences, scanning left to right (fuel as in
`splitSubCore`). -/
def countSubCore (s0 : Char) (sr : List Char) : ℕ → List Char → Nat
  | _, [] => 0
  | 0, _ => 0
  | fuel + 1, c :: rest =>
    if (s0 :: sr).isPrefixOf (c :: rest) then
      countSubCore s0 sr fuel (rest.drop sr.length) + 1
    else
      countSubCore s0 sr fuel rest

/-- Python `s.split(sep)` for a nonempty separator string. -/
def pySplitSub (s sub : String) : List String :=
  match sub.toList with
  | [] => [s]
  | s0 :: sr => (splitSubCore s0 sr s.toList.length [] s.toList).map List.asString

/-- Python `s.count(sub)` for a nonempty separator string. -/
def pyCountSub (s sub : String) : Nat :=
  match sub.toList with
  | [] => 0
  | s0 :: sr => countSubCore s0 sr s.toList.length s.toList

/-- Truthiness of an optional string, as Python evaluates `if not x:` when
`x` is either `None` or a string. -/
def optTruthy : Option String → Bool
  | none => false
  | some s => s ≠ ""

/-- Captured result of one external command: `subprocess.run`'s return
code and captured streams. -/
structure CmdResult where
  returncode : Int
  stdout : String
  stderr : String
deriving DecidableEq

/-- Python exceptions that can escape the functions we model:
`ValueError` from tuple unpacking in `main`, `KeyError` from a dict access
in `parse_old_merge_tree_output`. -/
inductive PyError
  | valueError
  | keyError
deriving DecidableEq

/-- The commit-detail record built by `get_commit_details_batch`
(`message`, `author`, `date`, `sha` keys of the Python dict). -/
structure CommitInfo where
  message : String
  author : String
  date : String
  sha : String
deriving DecidableEq

/-- Responses of the external git plumbing, at the raw subprocess level.
A `none` for an `Option CmdResult` field models an exception while
spawning the process (caught by `run_command`).  Commands issued directly
through `subprocess.run` without `run_command` (`merge-tree --write-tree`,
`merge-file`, `rev-parse --abbrev-ref HEAD`) have their own fields.
`revListMerges` and `logNoWalk` receive the set of commit ids queried (the
real commands' answers are functions of that set; Python passes
`list(commit_hashes)` whose iteration order is unspecified). -/
structure Oracle where
  /-- `git show rev:path` via `run_command` (arguments: rev, path). -/
  showFile : String → String → Option CmdResult
  /-- `git blame --porcelain branch -- path` via `run_command`. -/
  blame : String → String → Option CmdResult
  /-- `git rev-list --merges <commits>` via `run_command`. -/
  revListMerges : Finset String → Option CmdResult
  /-- `git merge-base source target` via `run_command`. -/
  mergeBase : String → String → Option CmdResult
  /-- `git diff merge_base target -- filename` via `run_command`. -/
  diffFile : String → String → String → Option CmdResult
  /-- `git log --format=... --date=iso --no-walk <commits>` via `run_command`. -/
  logNoWalk : Finset String → Option CmdResult
  /-- `git rev-parse --abbrev-ref HEAD`, called directly in `get_current_branch`. -/
  currentBranch : Option CmdResult
  /-- `git merge-tree --write-tree source target`, called directly with
  stderr redirected into stdout. -/
  mergeTreeWrite : String → String → CmdResult
  /-- `git merge-tree merge_base source target` (legacy format) via `run_command`. -/
  mergeTreeOld : String → String → String → Option CmdResult
  /-- `git merge-file -p` over temp files holding the source, base and
  target contents (arguments: source, base, target contents). -/
  mergeFile : String → String → String → CmdResult
  /-- `git cat-file -p commit` via `run_command`. -/
  catFile : String → Option CmdResult

/-- Value part of `run_command` (lines 52-77): `None` on spawn exception
or nonzero return code, otherwise the stripped stdout. -/
def runCommandValue : Option CmdResult → Option String
  | none => none
  | some r => if r.returncode ≠ 0 then none else some (pyStrip r.stdout)

/-- Messages `run_command` prints to stderr: on failure it passes the
command's stderr through verbatim exactly when it contains
"not a git repository" (case-insensitively); every other outcome prints
nothing. -/
def runCommandPrints : Option CmdResult → List String
  | none => []
  | some r =>
    if r.returncode ≠ 0 ∧ pyContains (pyLower r.stderr) "not a git repository" then
      [r.stderr]
    else []

/-- `get_current_branch` (lines 79-98): direct `subprocess.run`, `None` on
exception or nonzero return code, otherwise stripped stdout. -/
def get_current_branch (o : Oracle) : Option String :=
  match o.currentBranch with
  | none => none
  | some r => if r.returncode ≠ 0 then none else some (pyStrip r.stdout)

/-- The conflict-marker state machine of `find_actual_conflict_lines`
(lines 200-210): collect the lines strictly between the `=======` and
`>>>>>>>` markers of each conflict region of the `git merge-file -p`
output. -/
def collectTheirSide : List String → Bool → Bool → List String
  | [], _, _ => []
  | line :: rest, inConflict, inTheir =>
    if pyStartsWith line "<<<<<<<" then collectTheirSide rest true false
    else if pyStartsWith line "=======" && inConflict then collectTheirSide rest inConflict true
    else if pyStartsWith line ">>>>>>>" && inConflict then collectTheirSide rest false false
    else if inConflict && inTheir then line :: collectTheirSide rest inConflict inTheir
    else collectTheirSide rest inConflict inTheir

/-- Added lines of a diff (lines 222-226): lines starting with `+` but not
`+++`, with the `+` prefix removed. -/
def addedDiffLines (diff : String) : List String :=
  (pySplitlines diff).filterMap fun line =>
    if pyStartsWith line "+" && !pyStartsWith line "+++" then some (pyDrop 1 line) else none

/-- The branch of `find_actual_conflict_lines` for a file missing from the
merge base (lines 147-164): positional comparison of source and target
lines, keeping every non-blank target line that differs from the source
line at the same position. -/
def bothAddedConflicts (sourceLines targetLines : List String) : List String :=
  (List.range (max sourceLines.length targetLines.length)).filterMap fun i =>
    let s := sourceLines.getD i ""
    let t := targetLines.getD i ""
    if s ≠ t ∧ pyStrip t ≠ "" then some t else none

/-- `find_actual_conflict_lines` (lines 136-237). -/
def find_actual_conflict_lines (o : Oracle) (filename source target merge_base : String) :
    List String :=
  let source_content := runCommandValue (o.showFile source filename)
  let target_content := runCommandValue (o.showFile target filename)
  let base_content := runCommandValue (o.showFile merge_base filename)
  if !optTruthy source_content || !optTruthy target_content then []
  else if !optTruthy base_content then
    bothAddedConflicts (pySplitlines (source_content.getD ""))
      (pySplitlines (target_content.getD ""))
  else
    let mergeResult :=
      o.mergeFile (source_content.getD "") (base_content.getD "") (target_content.getD "")
    if mergeResult.returncode = 1 then
      collectTheirSide (pySplitlines mergeResult.stdout) false false
    else if mergeResult.returncode = 0 then
      match runCommandValue (o.diffFile merge_base target filename) with
      | some d => if d ≠ "" then (addedDiffLines d).take 20 else []
      | none => []
    else []

/-- The lowercase hexadecimal alphabet used by the blame parser's commit
hash test (line 591). -/
def hexChars : List Char := "0123456789abcdef".toList

/-- Whether a blame output line is recognized as a commit header: its
first whitespace token has length 40 and consists of `0-9a-f` only. -/
def isBlameHeaderLine (line : String) : Bool :=
  match pySplitWs line with
  | [] => false
  | tok :: _ => tok.length = 40 && tok.toList.all (· ∈ hexChars)

/-- First whitespace token of a line, if any. -/
def blameHeadToken (line : String) : Option String :=
  (pySplitWs line).head?

/-- The parsing loop of `get_blame_for_lines` (lines 588-596): walk the
blame output, remembering the last commit header seen (`cur`, initially
`None`) and counting the tab-prefixed content lines; record requested
line numbers in order. -/
def parseBlameAux (lineNumbers : Finset ℕ) :
    List String → Option String → ℕ → List (ℕ × Option String)
  | [], _, _ => []
  | line :: rest, cur, n =>
    if isBlameHeaderLine line then
      parseBlameAux lineNumbers rest (blameHeadToken line) n
    else if pyStartsWith line "\t" then
      (if (n + 1) ∈ lineNumbers then [(n + 1, cur)] else []) ++
        parseBlameAux lineNumbers rest cur (n + 1)
    else parseBlameAux lineNumbers rest cur n

/-- `get_blame_for_lines` (lines 575-598): mapping from requested line
numbers to the commit attributed by blame (possibly `None`), as an
association list in insertion order. -/
def get_blame_for_lines (o : Oracle) (file_path branch : String) (line_numbers : Finset ℕ) :
    List (ℕ × Option String) :=
  match runCommandValue (o.blame branch file_path) with
  | some out => if out ≠ "" then parseBlameAux line_numbers (pySplitlines out) none 0 else []
  | none => []

/-- Python `dict.get(k)` on the association list produced by
`get_blame_for_lines`: `None` both for a missing key and for a stored
`None` value. -/
def blameGet (m : List (ℕ × Option String)) (n : ℕ) : Option String :=
  match m.lookup n with
  | some v => v
  | none => none

/-- The normalization of conflicting content in
`find_commits_for_specific_lines` (line 530): strip each line, keep only
non-blank results longer than 2 characters. -/
def normalizedConflictLines (conflicting_content : List String) : List String :=
  conflicting_content.filterMap fun line =>
    let t := pyStrip line
    if t ≠ "" ∧ t.length > 2 then some t else none

/-- The line-number matching of `find_commits_for_specific_lines`
(lines 533-537): 1-based positions of target-file lines whose stripped
text is non-blank and equal to one of the normalized conflicting lines. -/
def matchedLineNumbers (targetLines : List String) (normalized : List String) : Finset ℕ :=
  ((List.range targetLines.length).filterMap fun i =>
    if pyStrip (targetLines.getD i "") ≠ "" ∧ pyStrip (targetLines.getD i "") ∈ normalized then
      some (i + 1)
    else none).toFinset

/-- The divergence check of `find_commits_for_specific_lines`
(lines 553-565): a line contributes its target-branch commit when both
blames are truthy and different. -/
def divergentCommits (targetBlame sourceBlame : List (ℕ × Option String))
    (lineNums : Finset ℕ) : Finset String :=
  lineNums.biUnion fun n =>
    match blameGet targetBlame n, blameGet sourceBlame n with
    | some t, some s => if t ≠ "" ∧ s ≠ "" ∧ t ≠ s then {t} else ∅
    | _, _ => ∅

/-- `get_merge_commits_batch` (lines 665-691): `git rev-list --merges` over
the candidate list; a failed or empty response yields the empty set.  (The
`except` fallback to `is_merge_commit` is unreachable: `run_command`
catches its own exceptions.) -/
def get_merge_commits_batch (o : Oracle) (commit_hashes : Finset String) : Finset String :=
  if commit_hashes = ∅ then ∅
  else
    match runCommandValue (o.revListMerges commit_hashes) with
    | some out => if out ≠ "" then (pySplitlines out).toFinset else ∅
    | none => ∅

/-- `filter_merge_commits_only` (lines 650-663): keep the truthy commits
not reported as merges; membership semantics of the returned list. -/
def filter_merge_commits_only (o : Oracle) (commit_set : Finset String) : Finset String :=
  if commit_set = ∅ then ∅
  else
    let merge_commits := get_merge_commits_batch o commit_set
    commit_set.filter fun c => c ≠ "" ∧ c ∉ merge_commits

/-- `is_merge_commit` (lines 722-729), the unreachable per-commit fallback:
more than one `parent ` occurrence in `git cat-file -p`. -/
def is_merge_commit (o : Oracle) (commit_hash : String) : Bool :=
  if commit_hash = "" then false
  else
    match runCommandValue (o.catFile commit_hash) with
    | some cat => if cat ≠ "" then pyCountSub cat "parent " > 1 else false
    | none => false

/-- The candidate commits of one file before merge filtering: the part of
`find_commits_for_specific_lines` up to line 567 (content fetching,
line matching, blame lookup, divergence check) without the final
`filter_merge_commits_only` call. -/
def attribution_candidates (o : Oracle) (file_path : String) (conflicting_content : List String)
    (target_branch source_branch : String) : Finset String :=
  let target_file_content := runCommandValue (o.showFile target_branch file_path)
  let source_file_content := runCommandValue (o.showFile source_branch file_path)
  if !optTruthy target_file_content || !optTruthy source_file_content then ∅
  else
    let target_lines := pySplitlines (target_file_content.getD "")
    let lineNums := matchedLineNumbers target_lines (normalizedConflictLines conflicting_content)
    if lineNums = ∅ then ∅
    else
      divergentCommits (get_blame_for_lines o file_path target_branch lineNums)
        (get_blame_for_lines o file_path source_branch lineNums) lineNums

/-- `find_commits_for_specific_lines` (lines 509-573). -/
def find_commits_for_specific_lines (o : Oracle) (file_path : String)
    (conflicting_content : List String) (target_branch source_branch : String) : Finset String :=
  let target_file_content := runCommandValue (o.showFile target_branch file_path)
  let source_file_content := runCommandValue (o.showFile source_branch file_path)
  if !optTruthy target_file_content || !optTruthy source_file_content then ∅
  else
    let target_lines := pySplitlines (target_file_content.getD "")
    let lineNums := matchedLineNumbers target_lines (normalizedConflictLines conflicting_content)
    if lineNums = ∅ then ∅
    else
      filter_merge_commits_only o
        (divergentCommits (get_blame_for_lines o file_path target_branch lineNums)
          (get_blame_for_lines o file_path source_branch lineNums) lineNums)

/-- `get_commits_for_conflicting_lines` (lines 498-507). -/
def get_commits_for_conflicting_lines (o : Oracle) (file_path : String)
    (conflicting_content : List String) (target_branch source_branch : String) : Finset String :=
  if conflicting_content ≠ [] then
    find_commits_for_specific_lines o file_path conflicting_content target_branch source_branch
  else ∅

/-- Filename extraction from one line of `git merge-tree --write-tree`
output (lines 361-366): lines mentioning both "CONFLICT (content):" and
"Merge conflict in" contribute the stripped text after the first
"Merge conflict in " (Python `split` piece 1). -/
def extractConflictFilename (line : String) : Option String :=
  if pyContains line "CONFLICT (content):" && pyContains line "Merge conflict in" then
    let parts := pySplitSub line "Merge conflict in "
    if parts.length > 1 then some (pyStrip (parts.getD 1 "")) else none
  else none

/-- Insertion-order key set of a Python dict built by repeated
`d[k] = v` assignments: keep the first occurrence of each key. -/
def dedupKeepFirst (l : List String) : List String :=
  l.foldl (fun acc x => if x ∈ acc then acc else acc ++ [x]) []

/-- Section-header test of the legacy merge-tree parser (lines 456-459). -/
def isSectionHeader (line : String) : Bool :=
  pyStartsWith line "changed in both" || pyStartsWith line "added in both" ||
  pyStartsWith line "both added" || pyStartsWith line "both modified"

/-- The filename lookahead of the legacy parser (lines 461-469): scan
indices `i+1 .. min(i+10, len)-1`; the first line that is non-blank,
starts with "  our" or "  their" and has at least 4 whitespace tokens
yields its last token. -/
def lookaheadFilename (lines : List String) (i : ℕ) : Option String :=
  ((List.range' (i + 1) (min (i + 10) lines.length - (i + 1))).filterMap fun j =>
    let nl := lines.getD j ""
    if pyStrip nl ≠ "" ∧ (pyStartsWith nl "  our" || pyStartsWith nl "  their") ∧
        (pySplitWs nl).length ≥ 4 then
      (pySplitWs nl).getLast?
    else none).head?

/-- `conflicts[k] = []` guarded by `k not in conflicts` (line 477-478). -/
def dictInsertEmptyIfAbsent (d : List (String × List String)) (k : String) :
    List (String × List String) :=
  if (d.lookup k).isSome then d else d ++ [(k, [])]

/-- `conflicts[k].extend(v)` (line 486): `none` models the `KeyError`
Python raises when `k` is not a key of the dict. -/
def dictExtend (d : List (String × List String)) (k : String) (v : List String) :
    Option (List (String × List String)) :=
  if (d.lookup k).isSome then
    some (d.map fun p => if p.1 = k then (p.1, p.2 ++ v) else p)
  else none

/-- The loop of `parse_old_merge_tree_output` (lines 454-494), indexed by
the current position so the filename lookahead can see forward.  State:
current file (`cf`), in-conflict and in-their-section flags, content
collected for the current region, and the conflicts dict.  A `none` result
models an uncaught `KeyError` from `conflicts[current_file].extend`. -/
def parseOldAux (lines : List String) :
    ℕ → ℕ → Option String → Bool → Bool → List String → List (String × List String) →
    Option (List (String × List String))
  | 0, _, _, _, _, _, conflicts => some conflicts
  | fuel + 1, i, cf, inC, inT, cur, conflicts =>
    if i < lines.length then
      let line := lines.getD i ""
      if isSectionHeader line then
        let cf' := match lookaheadFilename lines i with
          | some f => some f
          | none => cf
        parseOldAux lines fuel (i + 1) cf' inC inT cur conflicts
      else if pyContains line "+<<<<<<< .our" then
        let conflicts' := match cf with
          | some f => if f ≠ "" then dictInsertEmptyIfAbsent conflicts f else conflicts
          | none => conflicts
        parseOldAux lines fuel (i + 1) cf true false [] conflicts'
      else if pyContains line "+=======" && inC then
        parseOldAux lines fuel (i + 1) cf inC true cur conflicts
      else if pyContains line "+>>>>>>> .their" && inC then
        match cf with
        | some f =>
          if f ≠ "" then
            match dictExtend conflicts f cur with
            | some conflicts' => parseOldAux lines fuel (i + 1) cf false false [] conflicts'
            | none => none
          else parseOldAux lines fuel (i + 1) cf false false [] conflicts
        | none => parseOldAux lines fuel (i + 1) cf false false [] conflicts
      else if inC && inT && pyStartsWith line "+" then
        parseOldAux lines fuel (i + 1) cf inC inT (cur ++ [pyDrop 1 line]) conflicts
      else parseOldAux lines fuel (i + 1) cf inC inT cur conflicts
    else some conflicts

/-- `parse_old_merge_tree_output` (lines 443-496).  The fuel equals the
number of lines, and one unit is spent per loop iteration, so the loop
always ends by running off the end of the input, exactly as in Python. -/
def parse_old_merge_tree_output (merge_output : String) :
    Option (List (String × List String)) :=
  parseOldAux (pySplitlines merge_output) (pySplitlines merge_output).length 0 none false false [] []

/-- `find_conflicting_files_and_content` (lines 334-383).  The result is
the conflicts dict as an association list in insertion order; `none`
models an uncaught exception escaping the legacy parser. -/
def find_conflicting_files_and_content (o : Oracle) (source target : String) :
    Option (List (String × List String)) :=
  let mb := runCommandValue (o.mergeBase source target)
  if !optTruthy mb then some []
  else
    let merge_base := mb.getD ""
    let result := o.mergeTreeWrite source target
    let newFormat : Option (List (String × List String)) :=
      if result.returncode = 1 ∧ result.stdout ≠ "" then
        let files := dedupKeepFirst ((pySplitlines result.stdout).filterMap extractConflictFilename)
        if files ≠ [] then
          some (files.map fun f => (f, find_actual_conflict_lines o f source target merge_base))
        else none
      else none
    match newFormat with
    | some cs => some cs
    | none =>
      match runCommandValue (o.mergeTreeOld merge_base source target) with
      | some out => if out ≠ "" then parse_old_merge_tree_output out else some []
      | none => some []

/-- Python `line.split(" ", 1)[1]`: everything after the first space. -/
def pyTailAfterFirstSpace (line : String) : String :=
  ((line.toList.dropWhile (· ≠ ' ')).drop 1).asString

/-- The while loop of `get_commit_details_batch` (lines 769-791): a
`COMMIT_START <hash>` line followed by at least four more lines yields a
record from the next three lines (subject, author, date) and skips five
lines; a header too close to the end breaks the loop; other lines are
skipped. -/
def parseCommitDetailsAux : List String → List (String × CommitInfo)
  | [] => []
  | line :: rest =>
    if pyStartsWith line "COMMIT_START " then
      match rest with
      | m :: a :: d :: _e :: rest' =>
        let h := pyTailAfterFirstSpace line
        (h, ⟨m, a, d, h⟩) :: parseCommitDetailsAux rest'
      | _ => []
    else parseCommitDetailsAux rest

/-- `get_commit_details_batch` (lines 754-793). -/
def get_commit_details_batch (o : Oracle) (commit_hashes : Finset String) :
    List (String × CommitInfo) :=
  if commit_hashes = ∅ then []
  else
    match runCommandValue (o.logNoWalk commit_hashes) with
    | some out => if out ≠ "" then parseCommitDetailsAux (pySplitlines out) else []
    | none => []

/-- The commit accumulation loop of `main` (lines 825-830):
`all_commit_hashes.update(...)` over the conflicting files in order. -/
def accumulate_commits (o : Oracle) (conflicts : List (String × List String))
    (target_branch source_branch : String) : Finset String :=
  conflicts.foldl
    (fun acc p => acc ∪ get_commits_for_conflicting_lines o p.1 p.2 target_branch source_branch) ∅

/-- What a completed run of `main` produced: the exit code, the conflicts
dict, and the commit-details dict (association list in insertion order). -/
structure RunOutput where
  exitCode : ℕ
  conflicts : List (String × List String)
  commitDetails : List (String × CommitInfo)
deriving DecidableEq

instance {ε α : Type} [DecidableEq ε] [DecidableEq α] : DecidableEq (Except ε α) := fun x y =>
  match x, y with
  | .error a, .error b =>
    if h : a = b then .isTrue (congrArg Except.error h)
    else .isFalse fun hh => h (Except.error.inj hh)
  | .ok a, .ok b =>
    if h : a = b then .isTrue (congrArg Except.ok h)
    else .isFalse fun hh => h (Except.ok.inj hh)
  | .error _, .ok _ => .isFalse fun hh => Except.noConfusion hh
  | .ok _, .error _ => .isFalse fun hh => Except.noConfusion hh

/-- The branch-argument handling of `main` (lines 805-809): an argument
containing ".." is split and unpacked into exactly two names (a
`ValueError` escapes otherwise); any other argument names the target and
the source is the current branch. -/
def parseBranchArg (o : Oracle) (branch : String) : Except PyError (Option String × String) :=
  if pyContains branch ".." then
    match pySplitSub branch ".." with
    | [a, b] => .ok (some a, b)
    | _ => .error .valueError
  else .ok (get_current_branch o, branch)

/-- `main` (lines 795-851), modulo printing: resolve the branches, find
conflicts, accumulate and detail the attributed commits. -/
def main_run (o : Oracle) (branch : String) : Except PyError RunOutput :=
  match parseBranchArg o branch with
  | .error e => .error e
  | .ok (src, target_branch) =>
    if !optTruthy src then .ok ⟨1, [], []⟩
    else
      let source_branch := src.getD ""
      match find_conflicting_files_and_content o source_branch target_branch with
      | none => .error .keyError
      | some conflicts =>
        if conflicts = [] then .ok ⟨0, [], []⟩
        else
          let all := accumulate_commits o conflicts target_branch source_branch
          .ok ⟨0, conflicts, get_commit_details_batch o all⟩

/-! ## General lemmas about the embedding -/

/-- An oracle on which every external command fails to produce data. -/
def oracleTrivial : Oracle where
  showFile := fun _ _ => none
  blame := fun _ _ => none
  revListMerges := fun _ => none
  mergeBase := fun _ _ => none
  diffFile := fun _ _ _ => none
  logNoWalk := fun _ => none
  currentBranch := none
  mergeTreeWrite := fun _ _ => ⟨0, "", ""⟩
  mergeTreeOld := fun _ _ _ => none
  mergeFile := fun _ _ _ => ⟨0, "", ""⟩
  catFile := fun _ => none

theorem mem_matchedLineNumbers (tl nor : List String) (n : ℕ) :
    n ∈ matchedLineNumbers tl nor ↔
      ∃ i < tl.length, n = i + 1 ∧ pyStrip (tl.getD i "") ≠ "" ∧
        pyStrip (tl.getD i "") ∈ nor := by
  rw [matchedLineNumbers, List.mem_toFinset, List.mem_filterMap]
  constructor
  · rintro ⟨i, hi, hg⟩
    rw [List.mem_range] at hi
    by_cases hP : pyStrip (tl.getD i "") ≠ "" ∧ pyStrip (tl.getD i "") ∈ nor
    · rw [if_pos hP, Option.some.injEq] at hg
      exact ⟨i, hi, hg.symm, hP.1, hP.2⟩
    · rw [if_neg hP] at hg
      exact absurd hg (by simp)
  · rintro ⟨i, hi, rfl, h1, h2⟩
    exact ⟨i, List.mem_range.2 hi, if_pos ⟨h1, h2⟩⟩

theorem normalizedConflictLines_eq (cc : List String) :
    normalizedConflictLines cc =
      (cc.map pyStrip).filter fun t => decide (t ≠ "" ∧ 2 < t.length) := by
  induction cc with
  | nil => rfl
  | cons l t ih =>
    simp only [List.map_cons, List.filter_cons]
    by_cases hP : pyStrip l ≠ "" ∧ (pyStrip l).length > 2
    · rw [show normalizedConflictLines (l :: t) = pyStrip l :: normalizedConflictLines t from by
        simp [normalizedConflictLines, List.filterMap_cons, hP]]
      simp [hP, ih]
    · rw [show normalizedConflictLines (l :: t) = normalizedConflictLines t from by
        simp [normalizedConflictLines, List.filterMap_cons, hP]]
      simp [hP, ih]

/-- C7: conflicting lines are normalized by stripping surrounding
whitespace; normalized lines of length at most 2 are discarded; a target
line number matches exactly when its stripped text equals one of the
normalized conflicting lines (non-fuzzy, non-positional); and when no line
number matches, the resolver returns no attribution for the file. -/
theorem c7_line_matching (cc tl : List String) (n : ℕ) (o : Oracle) (fp tb sb : String) :
    normalizedConflictLines cc =
      ((cc.map pyStrip).filter fun t => decide (t ≠ "" ∧ 2 < t.length)) ∧
    (n ∈ matchedLineNumbers tl (normalizedConflictLines cc) ↔
      ∃ i < tl.length, n = i + 1 ∧ pyStrip (tl.getD i "") ≠ "" ∧
        pyStrip (tl.getD i "") ∈ normalizedConflictLines cc) ∧
    (matchedLineNumbers (pySplitlines ((runCommandValue (o.showFile tb fp)).getD ""))
        (normalizedConflictLines cc) = ∅ →
      find_commits_for_specific_lines o fp cc tb sb = ∅) := by
  refine ⟨normalizedConflictLines_eq cc, mem_matchedLineNumbers _ _ _, fun hempty => ?_⟩
  unfold find_commits_for_specific_lines
  by_cases h1 : (!optTruthy (runCommandValue (o.showFile tb fp)) ||
      !optTruthy (runCommandValue (o.showFile sb fp))) = true
  · simp [h1]
  · simp only [Bool.not_eq_true] at h1
    simp [h1, hempty]

/-- Witness for C7 at a concrete input: with a conflicting line whose
normalized text matches nothing in the (empty) target content, the
resolver attributes nothing. -/
theorem c7_witness :
    find_commits_for_specific_lines oracleTrivial "f.txt" ["  foo bar  "] "t" "s" = ∅ :=
  (c7_line_matching ["  foo bar  "] [] 1 oracleTrivial "f.txt" "t" "s").2.2 (by decide)

theorem parseBlameAux_keys_subset (req : Finset ℕ) :
    ∀ (lines : List String) (cur : Option String) (n : ℕ),
      ∀ p ∈ parseBlameAux req lines cur n, p.1 ∈ req := by
  intro lines
  induction lines with
  | nil => intro cur n p hp; simp [parseBlameAux] at hp
  | cons line rest ih =>
    intro cur n p hp
    simp only [parseBlameAux] at hp
    by_cases h1 : isBlameHeaderLine line = true
    · rw [if_pos h1] at hp
      exact ih _ _ p hp
    · rw [if_neg h1] at hp
      by_cases h2 : pyStartsWith line "\t" = true
      · rw [if_pos h2] at hp
        rcases List.mem_append.1 hp with h | h
        · by_cases hm : (n + 1) ∈ req
          · rw [if_pos hm, List.mem_singleton] at h
            rw [h]
            exact hm
          · rw [if_neg hm] at h
            exact absurd h (List.not_mem_nil p)
        · exact ih _ _ p h
      · rw [if_neg h2] at hp
        exact ih _ _ p hp

theorem parseBlameAux_before_header (req : Finset ℕ) :
    ∀ (lines : List String) (j n : ℕ), j < lines.length →
      (∀ k < j + 1, isBlameHeaderLine (lines.getD k "") = false) →
      pyStartsWith (lines.getD j "") "\t" = true →
      (n + ((lines.take (j + 1)).filter fun l => pyStartsWith l "\t").length) ∈ req →
      (n + ((lines.take (j + 1)).filter fun l => pyStartsWith l "\t").length,
        (none : Option String)) ∈ parseBlameAux req lines none n := by
  intro lines
  induction lines with
  | nil => intro j n hj; exact absurd hj (by simp)
  | cons line rest ih =>
    intro j n hj hnh ht hreq
    have hline : isBlameHeaderLine line = false := by
      have := hnh 0 (Nat.succ_pos j)
      simpa using this
    have h1 : ¬ isBlameHeaderLine line = true := by simp [hline]
    cases j with
    | zero =>
      have htl : pyStartsWith line "\t" = true := by simpa using ht
      have hcnt : ((List.take 1 (line :: rest)).filter fun l => pyStartsWith l "\t").length = 1 := by
        simp [htl]
      rw [hcnt] at hreq ⊢
      simp only [parseBlameAux]
      rw [if_neg h1, if_pos htl, if_pos hreq]
      exact List.mem_append.2 (Or.inl (List.mem_singleton.2 rfl))
    | succ j' =>
      have hj' : j' < rest.length := by simpa using hj
      have hnh' : ∀ k < j' + 1, isBlameHeaderLine (rest.getD k "") = false := by
        intro k hk
        have := hnh (k + 1) (by omega)
        simpa using this
      have ht' : pyStartsWith (rest.getD j' "") "\t" = true := by simpa using ht
      simp only [parseBlameAux]
      rw [if_neg h1]
      by_cases h2 : pyStartsWith line "\t" = true
      · have hcnt : ((List.take (j' + 1 + 1) (line :: rest)).filter fun l =>
            pyStartsWith l "\t").length =
            ((List.take (j' + 1) rest).filter fun l => pyStartsWith l "\t").length + 1 := by
          simp [List.take_succ_cons, h2]
        rw [if_pos h2]
        have hreq' : ((n + 1) +
            ((List.take (j' + 1) rest).filter fun l => pyStartsWith l "\t").length) ∈ req := by
          rw [show (n + 1) + ((List.take (j' + 1) rest).filter fun l =>
            pyStartsWith l "\t").length = n + (((List.take (j' + 1) rest).filter fun l =>
              pyStartsWith l "\t").length + 1) from by omega, ← hcnt]
          exact hreq
        have hmem := ih j' (n + 1) hj' hnh' ht' hreq'
        have heq : n + ((List.take (j' + 1 + 1) (line :: rest)).filter fun l =>
            pyStartsWith l "\t").length =
            (n + 1) + ((List.take (j' + 1) rest).filter fun l => pyStartsWith l "\t").length := by
          rw [hcnt]; omega
        rw [heq]
        exact List.mem_append.2 (Or.inr hmem)
      · have hcnt : ((List.take (j' + 1 + 1) (line :: rest)).filter fun l =>
            pyStartsWith l "\t").length =
            ((List.take (j' + 1) rest).filter fun l => pyStartsWith l "\t").length := by
          simp [List.take_succ_cons, h2]
        rw [if_neg h2]
        rw [hcnt] at hreq ⊢
        exact ih j' n hj' hnh' ht' hreq

/-- C10: the blame parser only records requested line numbers (its keys
are a subset of the requested set), and a tab-prefixed content line that
occurs before any 40-hex commit-header line is recorded with an absent
commit identifier (`None`) rather than raising an error. -/
theorem c10_blame_parsing (o : Oracle) (fp br : String) (req : Finset ℕ)
    (lines : List String) (j : ℕ) :
    (∀ p ∈ get_blame_for_lines o fp br req, p.1 ∈ req) ∧
    (j < lines.length →
      (∀ k < j + 1, isBlameHeaderLine (lines.getD k "") = false) →
      pyStartsWith (lines.getD j "") "\t" = true →
      ((lines.take (j + 1)).filter fun l => pyStartsWith l "\t").length ∈ req →
      (((lines.take (j + 1)).filter fun l => pyStartsWith l "\t").length,
        (none : Option String)) ∈ parseBlameAux req lines none 0) := by
  constructor
  · intro p hp
    unfold get_blame_for_lines at hp
    split at hp
    · split at hp
      · exact parseBlameAux_keys_subset req _ _ _ p hp
      · exact absurd hp (List.not_mem_nil p)
    · exact absurd hp (List.not_mem_nil p)
  · intro hj hnh ht hreq
    have := parseBlameAux_before_header req lines j 0 hj hnh ht (by simpa using hreq)
    simpa using this

/-- Witness for C10 at a concrete input: in a blame output whose first
line is garbage and whose second line is tab-prefixed content, requested
line 1 is mapped to `None`. -/
theorem c10_witness :
    ((1 : ℕ), (none : Option String)) ∈
      parseBlameAux {1} ["x y", "\tcontent"] none 0 := by
  have h := (c10_blame_parsing oracleTrivial "f" "b" {1} ["x y", "\tcontent"] 1).2
    (by decide) (by decide) (by decide) (by decide)
  simpa using h

/-- C8: when all three snapshots are available and the synthesized
three-way file merge reports success (return code 0) although the
tree-level check selected the file, extraction falls back to the added
lines of the MergeBase-to-target diff, truncated to the first 20. -/
theorem c8_merge_success_fallback (o : Oracle) (filename source target merge_base d : String)
    (hs : optTruthy (runCommandValue (o.showFile source filename)) = true)
    (ht : optTruthy (runCommandValue (o.showFile target filename)) = true)
    (hb : optTruthy (runCommandValue (o.showFile merge_base filename)) = true)
    (hrc : (o.mergeFile ((runCommandValue (o.showFile source filename)).getD "")
      ((runCommandValue (o.showFile merge_base filename)).getD "")
      ((runCommandValue (o.showFile target filename)).getD "")).returncode = 0)
    (hd : runCommandValue (o.diffFile merge_base target filename) = some d) :
    find_actual_conflict_lines o filename source target merge_base =
      (addedDiffLines d).take 20 ∧
    (find_actual_conflict_lines o filename source target merge_base).length ≤ 20 := by
  have hmain : find_actual_conflict_lines o filename source target merge_base =
      (addedDiffLines d).take 20 := by
    simp only [find_actual_conflict_lines, hs, ht, hb, hrc, hd, Bool.not_true, Bool.or_self,
      Bool.false_eq_true, if_false]
    rw [if_neg (by decide : ¬ (0 : Int) = 1), if_pos trivial]
    by_cases hde : d = ""
    · rw [if_neg (fun h => h hde)]
      have hempty : addedDiffLines "" = [] := by decide
      rw [hde, hempty]
      rfl
    · rw [if_pos hde]
  exact ⟨hmain, by rw [hmain]; simp [List.length_take]⟩

/-- The MergeBase-to-target diff text of the C8 witness scenario: a hunk
header followed by 22 added lines. -/
def diffC8 : String :=
  "@@ -1,1 +1,22 @@\n" ++
    String.intercalate "\n" ((List.range 22).map fun i => "+added " ++ toString i)

/-- Scenario oracle for the C8 witness: all three snapshots exist, the
file merge succeeds textually, and the MergeBase-to-target diff adds 22
lines. -/
def oracleC8 : Oracle :=
  { oracleTrivial with
    showFile := fun rev _ =>
      if rev = "s" then some ⟨0, "source body", ""⟩
      else if rev = "t" then some ⟨0, "target body", ""⟩
      else if rev = "MB" then some ⟨0, "base body", ""⟩
      else none
    mergeFile := fun _ _ _ => ⟨0, "merged body", ""⟩
    diffFile := fun _ _ _ => some ⟨0, diffC8, ""⟩ }

set_option maxRecDepth 8192 in
/-- Witness for C8 at a concrete input: of the 22 added lines only the
first 20 are returned. -/
theorem c8_witness :
    find_actual_conflict_lines oracleC8 "f.txt" "s" "t" "MB" =
      (addedDiffLines (pyStrip diffC8)).take 20 ∧
    (find_actual_conflict_lines oracleC8 "f.txt" "s" "t" "MB").length ≤ 20 :=
  c8_merge_success_fallback oracleC8 "f.txt" "s" "t" "MB" (pyStrip diffC8)
    (by decide) (by decide) (by decide) (by decide) rfl

theorem splitSubCore_length (s0 : Char) (sr : List Char) :
    ∀ (fuel : ℕ) (l acc : List Char), l.length ≤ fuel →
      (splitSubCore s0 sr fuel acc l).length = countSubCore s0 sr fuel l + 1 := by
  intro fuel
  induction fuel with
  | zero =>
    intro l acc h
    have hl : l = [] := List.length_eq_zero.1 (Nat.le_zero.1 h)
    subst hl
    simp [splitSubCore, countSubCore]
  | succ fuel ih =>
    intro l acc h
    cases l with
    | nil => simp [splitSubCore, countSubCore]
    | cons c rest =>
      simp only [splitSubCore, countSubCore]
      by_cases hp : (s0 :: sr).isPrefixOf (c :: rest) = true
      · have h' : (rest.drop sr.length).length ≤ fuel := by
          simp only [List.length_drop]
          simp only [List.length_cons] at h
          omega
        rw [if_pos hp, if_pos hp, List.length_cons, ih _ [] h']
      · have h' : rest.length ≤ fuel := by
          simp only [List.length_cons] at h
          omega
        rw [if_neg hp, if_neg hp]
        exact ih _ (c :: acc) h'

theorem countSubCore_pos_of_contains (s0 : Char) (sr : List Char) :
    ∀ (fuel : ℕ) (l : List Char), l.length ≤ fuel →
      listContainsSub (s0 :: sr) l = true → 1 ≤ countSubCore s0 sr fuel l := by
  intro fuel
  induction fuel with
  | zero =>
    intro l h hc
    have hl : l = [] := List.length_eq_zero.1 (Nat.le_zero.1 h)
    subst hl
    simp [listContainsSub, List.isPrefixOf] at hc
  | succ fuel ih =>
    intro l h hc
    cases l with
    | nil => simp [listContainsSub, List.isPrefixOf] at hc
    | cons c rest =>
      simp only [listContainsSub, Bool.or_eq_true] at hc
      simp only [countSubCore]
      by_cases hp : (s0 :: sr).isPrefixOf (c :: rest) = true
      · rw [if_pos hp]
        omega
      · rcases hc with hc | hc
        · exact absurd hc hp
        · have h' : rest.length ≤ fuel := by
            simp only [List.length_cons] at h
            omega
          rw [if_neg hp]
          exact ih rest h' hc

theorem contains_of_countSubCore_pos (s0 : Char) (sr : List Char) :
    ∀ (fuel : ℕ) (l : List Char),
      1 ≤ countSubCore s0 sr fuel l → listContainsSub (s0 :: sr) l = true := by
  intro fuel
  induction fuel with
  | zero =>
    intro l hc
    cases l <;> simp [countSubCore] at hc
  | succ fuel ih =>
    intro l hc
    cases l with
    | nil => simp [countSubCore] at hc
    | cons c rest =>
      simp only [listContainsSub, Bool.or_eq_true]
      by_cases hp : (s0 :: sr).isPrefixOf (c :: rest) = true
      · exact Or.inl hp
      · right
        apply ih
        simp only [countSubCore] at hc
        rw [if_neg hp] at hc
        exact hc

theorem pySplitSub_dots_length (arg : String) :
    (pySplitSub arg "..").length = pyCountSub arg ".." + 1 := by
  show ((splitSubCore '.' ['.'] arg.toList.length [] arg.toList).map List.asString).length = _
  rw [List.length_map]
  exact splitSubCore_length '.' ['.'] arg.toList.length arg.toList [] (le_refl _)

theorem main_run_not_valueError_after_ok (o : Oracle) (arg : String) (src : Option String)
    (t : String) (h : parseBranchArg o arg = .ok (src, t)) :
    main_run o arg ≠ .error .valueError := by
  intro hc
  unfold main_run at hc
  rw [h] at hc
  dsimp only at hc
  by_cases h1 : (!optTruthy src) = true
  · rw [if_pos h1] at hc
    exact Except.noConfusion hc
  · rw [if_neg h1] at hc
    split at hc
    · exact PyError.noConfusion (Except.error.inj hc)
    · split_ifs at hc

theorem parseBranchArg_ok_of_count_le_one (o : Oracle) (arg : String)
    (h : pyCountSub arg ".." ≤ 1) : ∃ src t, parseBranchArg o arg = .ok (src, t) := by
  by_cases hc : pyContains arg ".." = true
  · have h1 : 1 ≤ pyCountSub arg ".." :=
      countSubCore_pos_of_contains '.' ['.'] arg.toList.length arg.toList (le_refl _) hc
    have hlen : (pySplitSub arg "..").length = 2 := by
      rw [pySplitSub_dots_length]
      omega
    obtain ⟨a, b, hab⟩ := List.length_eq_two.1 hlen
    exact ⟨some a, b, by unfold parseBranchArg; rw [if_pos hc, hab]⟩
  · exact ⟨get_current_branch o, arg, by unfold parseBranchArg; rw [if_neg hc]⟩

/-- C9: a branch argument containing ".." two or more times splits into
more than two pieces, and the two-variable unpacking in `main` raises an
uncaught `ValueError`; with at most one occurrence no `ValueError` is
raised. -/
theorem c9_multi_dots_value_error (o : Oracle) (arg : String) :
    (2 ≤ pyCountSub arg ".." → 2 < (pySplitSub arg "..").length ∧
      main_run o arg = .error .valueError) ∧
    (pyCountSub arg ".." ≤ 1 → main_run o arg ≠ .error .valueError) := by
  constructor
  · intro h2
    have hcontains : pyContains arg ".." = true :=
      contains_of_countSubCore_pos '.' ['.'] arg.toList.length arg.toList (by
        have : 1 ≤ pyCountSub arg ".." := by omega
        exact this)
    have hlen := pySplitSub_dots_length arg
    refine ⟨by omega, ?_⟩
    rcases hs : pySplitSub arg ".." with _ | ⟨a, _ | ⟨b, _ | ⟨c, rest⟩⟩⟩
    · rw [hs] at hlen
      simp only [List.length_nil] at hlen
      omega
    · rw [hs] at hlen
      simp only [List.length_cons, List.length_nil] at hlen
      omega
    · rw [hs] at hlen
      simp only [List.length_cons, List.length_nil] at hlen
      omega
    · unfold main_run parseBranchArg
      rw [if_pos hcontains, hs]
  · intro h1
    obtain ⟨src, t, hok⟩ := parseBranchArg_ok_of_count_le_one o arg h1
    exact main_run_not_valueError_after_ok o arg src t hok

/-- Witness for C9 at a concrete input: "a..b..c" splits into three
pieces and the run dies with an uncaught `ValueError`. -/
theorem c9_witness :
    2 < (pySplitSub "a..b..c" "..").length ∧
      main_run oracleTrivial "a..b..c" = .error .valueError :=
  (c9_multi_dots_value_error oracleTrivial "a..b..c").1 (by decide)

/-- Success of the merge-detection oracle: every issued
`rev-list --merges` query returns, with return code 0, an output whose
lines characterize the ground-truth merge predicate on the queried
commits. -/
def MergeOracleOk (o : Oracle) (isMerge : String → Prop) : Prop :=
  ∀ S : Finset String, S ≠ ∅ → ∃ r : CmdResult,
    o.revListMerges S = some r ∧ r.returncode = 0 ∧
    ∀ c ∈ S, (c ∈ (pySplitlines (pyStrip r.stdout)).toFinset ↔ isMerge c)

theorem get_merge_commits_batch_spec (o : Oracle) (isMerge : String → Prop)
    (hsucc : MergeOracleOk o isMerge) (S : Finset String) (c : String) (hc : c ∈ S) :
    c ∈ get_merge_commits_batch o S ↔ isMerge c := by
  have hSne : S ≠ ∅ := fun h => absurd hc (h ▸ Finset.not_mem_empty c)
  obtain ⟨r, hr, hrc, hchar⟩ := hsucc S hSne
  unfold get_merge_commits_batch
  rw [if_neg hSne, hr]
  have hval : runCommandValue (some r) = some (pyStrip r.stdout) := by
    simp [runCommandValue, hrc]
  rw [hval]
  dsimp only
  by_cases hout : pyStrip r.stdout ≠ ""
  · rw [if_pos hout]
    exact hchar c hc
  · rw [if_neg hout]
    have hnil : pySplitlines (pyStrip r.stdout) = [] := by
      rw [not_not.1 hout]
      rfl
    have hch := hchar c hc
    rw [hnil] at hch
    simp only [List.toFinset_nil] at hch
    constructor
    · intro h
      exact absurd h (Finset.not_mem_empty c)
    · intro hm
      exact absurd (hch.2 hm) (Finset.not_mem_empty c)

theorem filter_merge_commits_only_excludes (o : Oracle) (isMerge : String → Prop)
    (hsucc : MergeOracleOk o isMerge) (S : Finset String) :
    ∀ c ∈ filter_merge_commits_only o S, c ∈ S ∧ c ≠ "" ∧ ¬ isMerge c := by
  intro c hc
  unfold filter_merge_commits_only at hc
  by_cases hS : S = ∅
  · rw [if_pos hS] at hc
    exact absurd hc (Finset.not_mem_empty c)
  · rw [if_neg hS] at hc
    rw [Finset.mem_filter] at hc
    exact ⟨hc.1, hc.2.1, fun hm =>
      hc.2.2 ((get_merge_commits_batch_spec o isMerge hsucc S c hc.1).2 hm)⟩

theorem find_commits_no_merge (o : Oracle) (isMerge : String → Prop)
    (hsucc : MergeOracleOk o isMerge) (fp : String) (cc : List String) (tb sb : String) :
    ∀ c ∈ find_commits_for_specific_lines o fp cc tb sb, ¬ isMerge c := by
  intro c hc
  unfold find_commits_for_specific_lines at hc
  dsimp only at hc
  split_ifs at hc
  · exact absurd hc (Finset.not_mem_empty c)
  · exact absurd hc (Finset.not_mem_empty c)
  · exact (filter_merge_commits_only_excludes o isMerge hsucc _ c hc).2.2

theorem accumulate_commits_no_merge (o : Oracle) (isMerge : String → Prop)
    (hsucc : MergeOracleOk o isMerge) (conflicts : List (String × List String)) (tb sb : String) :
    ∀ c ∈ accumulate_commits o conflicts tb sb, ¬ isMerge c := by
  suffices h : ∀ (l : List (String × List String)) (acc : Finset String),
      (∀ c ∈ acc, ¬ isMerge c) →
      ∀ c ∈ l.foldl (fun a p => a ∪ get_commits_for_conflicting_lines o p.1 p.2 tb sb) acc,
        ¬ isMerge c by
    intro c hc
    exact h conflicts ∅ (fun x hx => absurd hx (Finset.not_mem_empty x)) c hc
  intro l
  induction l with
  | nil =>
    intro acc hacc c hc
    exact hacc c hc
  | cons p tl ih =>
    intro acc hacc c hc
    refine ih _ ?_ c hc
    intro x hx
    rcases Finset.mem_union.1 hx with hx | hx
    · exact hacc x hx
    · unfold get_commits_for_conflicting_lines at hx
      split_ifs at hx
      · exact find_commits_no_merge o isMerge hsucc _ _ _ _ x hx
      · exact absurd hx (Finset.not_mem_empty x)

/-- C2: over any run of the pipeline in which the merge-detection queries
succeed (return data correctly characterizing which queried commits are
merges), no merge commit is in the accumulated attributed commit set,
regardless of what the per-line blame data points at. -/
theorem c2_no_merge_in_attributed (o : Oracle) (s t : String) (isMerge : String → Prop)
    (conflicts : List (String × List String))
    (_hrun : find_conflicting_files_and_content o s t = some conflicts)
    (hsucc : MergeOracleOk o isMerge) :
    ∀ c ∈ accumulate_commits o conflicts t s, ¬ isMerge c :=
  accumulate_commits_no_merge o isMerge hsucc conflicts t s

/-! Concrete scenario for the C2 witness: one conflicting file whose
their-side line matches line 2 of the target content; target blame at
line 2 names `hashTargetC2`, source blame names `hashSourceC2`; the
merge-detection oracle always answers with the single merge commit
`mergeHashC2`. -/

def hashSharedC2 : String := "aaaaaaaaaaaaaaaaaaaaaaaaaaaaaaaaaaaaaaaa"

def hashTargetC2 : String := "bbbbbbbbbbbbbbbbbbbbbbbbbbbbbbbbbbbbbbbb"

def hashSourceC2 : String := "cccccccccccccccccccccccccccccccccccccccc"

def mergeHashC2 : String := "dddddddddddddddddddddddddddddddddddddddd"

def oracleC2 : Oracle :=
  { oracleTrivial with
    showFile := fun rev _ =>
      if rev = "s" then some ⟨0, "alpha line one\nbeta line two", ""⟩
      else if rev = "t" then some ⟨0, "alpha line one\ngamma line two", ""⟩
      else if rev = "MB" then some ⟨0, "alpha line one\nbase line two", ""⟩
      else none
    blame := fun br _ =>
      if br = "t" then
        some ⟨0, hashSharedC2 ++ " 1 1 1\n\talpha line one\n" ++
          hashTargetC2 ++ " 2 2 1\n\tgamma line two", ""⟩
      else if br = "s" then
        some ⟨0, hashSharedC2 ++ " 1 1 1\n\talpha line one\n" ++
          hashSourceC2 ++ " 2 2 1\n\tbeta line two", ""⟩
      else none
    revListMerges := fun _ => some ⟨0, mergeHashC2, ""⟩
    mergeBase := fun _ _ => some ⟨0, "MB", ""⟩
    mergeTreeWrite := fun _ _ => ⟨1, "CONFLICT (content): Merge conflict in f.txt", ""⟩
    mergeFile := fun _ _ _ =>
      ⟨1, "<<<<<<< a\nbeta line two\n=======\ngamma line two\n>>>>>>> b", ""⟩ }

/-- Witness for C2 at a concrete run: the scenario attributes
`hashTargetC2` (so the conclusion is not vacuous) and no member of the
attributed set is the merge commit. -/
theorem c2_witness :
    hashTargetC2 ∈ accumulate_commits oracleC2 [("f.txt", ["gamma line two"])] "t" "s" ∧
    ∀ c ∈ accumulate_commits oracleC2 [("f.txt", ["gamma line two"])] "t" "s",
      ¬ (c = mergeHashC2) := by
  constructor
  · decide
  · apply c2_no_merge_in_attributed oracleC2 "s" "t" (· = mergeHashC2)
      [("f.txt", ["gamma line two"])]
    · decide
    · intro S hS
      refine ⟨⟨0, mergeHashC2, ""⟩, rfl, rfl, fun c hc => ?_⟩
      have hone : pySplitlines (pyStrip mergeHashC2) = [mergeHashC2] := by decide
      rw [show (⟨0, mergeHashC2, ""⟩ : CmdResult).stdout = mergeHashC2 from rfl, hone]
      simp

theorem filter_merge_commits_only_subset (o : Oracle) (S : Finset String) :
    filter_merge_commits_only o S ⊆ S := by
  intro c hc
  unfold filter_merge_commits_only at hc
  split_ifs at hc with h
  · exact absurd hc (Finset.not_mem_empty c)
  · exact (Finset.mem_filter.1 hc).1

theorem mem_divergentCommits (tb sb : List (ℕ × Option String)) (lineNums : Finset ℕ)
    (c : String) :
    c ∈ divergentCommits tb sb lineNums ↔
      ∃ n ∈ lineNums, ∃ s, blameGet tb n = some c ∧ blameGet sb n = some s ∧
        c ≠ "" ∧ s ≠ "" ∧ c ≠ s := by
  unfold divergentCommits
  rw [Finset.mem_biUnion]
  constructor
  · rintro ⟨n, hn, hc⟩
    refine ⟨n, hn, ?_⟩
    rcases htb : blameGet tb n with _ | t
    · rw [htb] at hc
      exact absurd hc (Finset.not_mem_empty c)
    · rcases hsb : blameGet sb n with _ | s
      · rw [htb, hsb] at hc
        exact absurd hc (Finset.not_mem_empty c)
      · rw [htb, hsb] at hc
        dsimp only at hc
        split_ifs at hc with hcond
        · rw [Finset.mem_singleton] at hc
          subst hc
          exact ⟨s, rfl, rfl, hcond.1, hcond.2.1, hcond.2.2⟩
        · exact absurd hc (Finset.not_mem_empty c)
  · rintro ⟨n, hn, s, htb, hsb, hc1, hc2, hc3⟩
    refine ⟨n, hn, ?_⟩
    rw [htb, hsb]
    dsimp only
    rw [if_pos ⟨hc1, hc2, hc3⟩, Finset.mem_singleton]

/-- C1 amended: the pipeline attributes a commit only through per-line
divergence: every commit in the result of
`find_commits_for_specific_lines` is the target-branch blame of some
matched conflicting line whose source-branch blame is present, truthy and
different.  No source-branch ancestry check is involved (the filter is
`filter_merge_commits_only`, which its own docstring says keeps commits
"regardless of branch existence"), so a non-merge commit contained in the
source branch's history is still attributed whenever the two blames
differ at a matched line. -/
theorem c1_divergence_only (o : Oracle) (fp : String) (cc : List String) (tb sb : String) :
    ∀ c ∈ find_commits_for_specific_lines o fp cc tb sb,
      ∃ n ∈ matchedLineNumbers (pySplitlines ((runCommandValue (o.showFile tb fp)).getD ""))
          (normalizedConflictLines cc),
        ∃ s, blameGet (get_blame_for_lines o fp tb
            (matchedLineNumbers (pySplitlines ((runCommandValue (o.showFile tb fp)).getD ""))
              (normalizedConflictLines cc))) n = some c ∧
          blameGet (get_blame_for_lines o fp sb
            (matchedLineNumbers (pySplitlines ((runCommandValue (o.showFile tb fp)).getD ""))
              (normalizedConflictLines cc))) n = some s ∧
          c ≠ "" ∧ s ≠ "" ∧ c ≠ s := by
  intro c hc
  unfold find_commits_for_specific_lines at hc
  dsimp only at hc
  split_ifs at hc
  · exact absurd hc (Finset.not_mem_empty c)
  · exact absurd hc (Finset.not_mem_empty c)
  · exact (mem_divergentCommits _ _ _ c).1 (filter_merge_commits_only_subset o _ hc)

/-! Concrete scenario refuting C1 as stated: the conflict region spans two
lines of `f.txt`.  Line 1 of the target content was last touched by
`sharedHashC1`, a commit in the common history of both branches (the
source branch's ancestry contains it); the source branch later rewrote
line 1 in a commit of its own, so the two blames differ there and the
pipeline attributes `sharedHashC1` even though it lies in the source
branch's history. -/

def sharedHashC1 : String := "aaaaaaaaaaaaaaaaaaaaaaaaaaaaaaaaaaaaaaaa"

def targetHashC1 : String := "bbbbbbbbbbbbbbbbbbbbbbbbbbbbbbbbbbbbbbbb"

def sourceHash1C1 : String := "cccccccccccccccccccccccccccccccccccccccc"

def sourceHash2C1 : String := "dddddddddddddddddddddddddddddddddddddddd"

def oracleC1 : Oracle :=
  { oracleTrivial with
    showFile := fun rev _ =>
      if rev = "s" then some ⟨0, "shared line modified\nsource new line", ""⟩
      else if rev = "t" then some ⟨0, "shared line content\ntarget new line", ""⟩
      else if rev = "MB" then some ⟨0, "shared line content\nold base line", ""⟩
      else none
    blame := fun br _ =>
      if br = "t" then
        some ⟨0, sharedHashC1 ++ " 1 1 1\n\tshared line content\n" ++
          targetHashC1 ++ " 2 2 1\n\ttarget new line", ""⟩
      else if br = "s" then
        some ⟨0, sourceHash1C1 ++ " 1 1 1\n\tshared line modified\n" ++
          sourceHash2C1 ++ " 2 2 1\n\tsource new line", ""⟩
      else none
    revListMerges := fun _ => some ⟨0, "", ""⟩
    mergeBase := fun _ _ => some ⟨0, "MB", ""⟩
    mergeTreeWrite := fun _ _ => ⟨1, "CONFLICT (content): Merge conflict in f.txt", ""⟩
    mergeFile := fun _ _ _ =>
      ⟨1, "<<<<<<< ours\nshared line modified\nsource new line\n=======\n" ++
        "shared line content\ntarget new line\n>>>>>>> theirs", ""⟩ }

/-- Ground truth of the C1 scenario repository: the source branch's
ancestry consists of the common history (containing `sharedHashC1`, the
author of the target's line 1) and the source-only commits; the
target-only commit is not in it. -/
def inSourceHistoryC1 : String → Prop := fun c =>
  c = sharedHashC1 ∨ c = sourceHash1C1 ∨ c = sourceHash2C1

/-- C1 counterexample: in a full run on the scenario oracle, the commit
`sharedHashC1` — contained in the source branch's history — is in the
accumulated attributed commit set, because it is the most recent modifier
of the conflicting line 1 on the target branch while the source blame of
that line differs. -/
theorem c1_counterexample :
    find_conflicting_files_and_content oracleC1 "s" "t" =
      some [("f.txt", ["shared line content", "target new line"])] ∧
    inSourceHistoryC1 sharedHashC1 ∧
    sharedHashC1 ∈ accumulate_commits oracleC1
      [("f.txt", ["shared line content", "target new line"])] "t" "s" :=
  ⟨by decide, Or.inl rfl, by decide⟩

/-- Witness for the C1 amended theorem at the scenario: the attribution of
`sharedHashC1` is witnessed by a matched line with divergent blames. -/
theorem c1_witness :
    ∃ n ∈ matchedLineNumbers
        (pySplitlines ((runCommandValue (oracleC1.showFile "t" "f.txt")).getD ""))
        (normalizedConflictLines ["shared line content", "target new line"]),
      ∃ s, blameGet (get_blame_for_lines oracleC1 "f.txt" "t"
          (matchedLineNumbers
            (pySplitlines ((runCommandValue (oracleC1.showFile "t" "f.txt")).getD ""))
            (normalizedConflictLines ["shared line content", "target new line"]))) n =
          some sharedHashC1 ∧
        blameGet (get_blame_for_lines oracleC1 "f.txt" "s"
          (matchedLineNumbers
            (pySplitlines ((runCommandValue (oracleC1.showFile "t" "f.txt")).getD ""))
            (normalizedConflictLines ["shared line content", "target new line"]))) n =
          some s ∧
        sharedHashC1 ≠ "" ∧ s ≠ "" ∧ sharedHashC1 ≠ s :=
  c1_divergence_only oracleC1 "f.txt" ["shared line content", "target new line"] "t" "s"
    sharedHashC1 (by decide)

/-- Modelled from the spec's words, for comparison with the code (C3):
"Accumulate the resulting set of distinct commit identifiers across all
lines of all files into one global candidate set before filtering —
filtering (4.5) must not be repeated per file."  The per-file candidate
sets are unioned first and `filter_merge_commits_only` is applied exactly
once to the global set. -/
def spec_global_attributed (o : Oracle) (conflicts : List (String × List String))
    (target_branch source_branch : String) : Finset String :=
  filter_merge_commits_only o
    (conflicts.foldl (fun acc p =>
      acc ∪ (if p.2 ≠ [] then attribution_candidates o p.1 p.2 target_branch source_branch
             else ∅)) ∅)

theorem filter_merge_commits_only_empty (o : Oracle) :
    filter_merge_commits_only o ∅ = ∅ := by
  unfold filter_merge_commits_only
  rw [if_pos rfl]

theorem filter_merge_commits_only_eq (o : Oracle) (isMerge : String → Prop)
    [DecidablePred isMerge] (hsucc : MergeOracleOk o isMerge) (S : Finset String) :
    filter_merge_commits_only o S = S.filter fun c => c ≠ "" ∧ ¬ isMerge c := by
  by_cases hS : S = ∅
  · subst hS
    rw [filter_merge_commits_only_empty]
    simp
  · unfold filter_merge_commits_only
    rw [if_neg hS]
    ext c
    rw [Finset.mem_filter, Finset.mem_filter]
    constructor
    · rintro ⟨h1, h2, h3⟩
      exact ⟨h1, h2, fun hm => h3 ((get_merge_commits_batch_spec o isMerge hsucc S c h1).2 hm)⟩
    · rintro ⟨h1, h2, h3⟩
      exact ⟨h1, h2, fun hm => h3 ((get_merge_commits_batch_spec o isMerge hsucc S c h1).1 hm)⟩

theorem find_commits_eq_filter_candidates (o : Oracle) (fp : String) (cc : List String)
    (tb sb : String) :
    find_commits_for_specific_lines o fp cc tb sb =
      filter_merge_commits_only o (attribution_candidates o fp cc tb sb) := by
  unfold find_commits_for_specific_lines attribution_candidates
  dsimp only
  split_ifs
  · rw [filter_merge_commits_only_empty]
  · rw [filter_merge_commits_only_empty]
  · rfl

theorem get_commits_eq_filter_candidates (o : Oracle) (fp : String) (cc : List String)
    (tb sb : String) :
    get_commits_for_conflicting_lines o fp cc tb sb =
      filter_merge_commits_only o
        (if cc ≠ [] then attribution_candidates o fp cc tb sb else ∅) := by
  unfold get_commits_for_conflicting_lines
  split_ifs
  · exact find_commits_eq_filter_candidates o fp cc tb sb
  · rw [filter_merge_commits_only_empty]

theorem foldl_union_init (f : (String × List String) → Finset String) :
    ∀ (l : List (String × List String)) (acc : Finset String),
      l.foldl (fun a p => a ∪ f p) acc = acc ∪ l.foldl (fun a p => a ∪ f p) ∅ := by
  intro l
  induction l with
  | nil => intro acc; simp
  | cons p t ih =>
    intro acc
    rw [List.foldl_cons, List.foldl_cons, ih (acc ∪ f p), ih (∅ ∪ f p)]
    simp [Finset.union_assoc]

/-- C3 amended: in the code the merge filter runs inside
`find_commits_for_specific_lines`, once per conflicting file, and `main`
unions the already-filtered per-file sets.  When every merge-detection
response is consistent with a single merge predicate (as with a real
repository), this is extensionally the same as filtering the global union
of per-file candidate sets once; with inconsistent responses the two can
differ, so "filtering applied exactly once to the global set" does not
describe the code. -/
theorem c3_filter_once_equivalence (o : Oracle) (tb sb : String) (isMerge : String → Prop)
    [DecidablePred isMerge] (hsucc : MergeOracleOk o isMerge)
    (conflicts : List (String × List String)) :
    accumulate_commits o conflicts tb sb = spec_global_attributed o conflicts tb sb := by
  have key : ∀ l : List (String × List String),
      l.foldl (fun a p => a ∪ get_commits_for_conflicting_lines o p.1 p.2 tb sb) ∅ =
      Finset.filter (fun c => c ≠ "" ∧ ¬ isMerge c)
        (l.foldl (fun a p =>
          a ∪ (if p.2 ≠ [] then attribution_candidates o p.1 p.2 tb sb else ∅)) ∅) := by
    intro l
    induction l with
    | nil => simp
    | cons p t ih =>
      rw [List.foldl_cons, List.foldl_cons,
        foldl_union_init (fun p => get_commits_for_conflicting_lines o p.1 p.2 tb sb) t,
        foldl_union_init (fun p =>
          if p.2 ≠ [] then attribution_candidates o p.1 p.2 tb sb else ∅) t,
        ih, get_commits_eq_filter_candidates o p.1 p.2 tb sb,
        filter_merge_commits_only_eq o isMerge hsucc, Finset.filter_union]
      simp
  unfold accumulate_commits spec_global_attributed
  rw [key conflicts, filter_merge_commits_only_eq o isMerge hsucc]

/-! Concrete scenario refuting C3 as stated: two conflicting files whose
per-file candidate sets are `{hashA3}` and `{hashB3}`; the merge-detection
oracle reports `hashA3` as a merge when asked about `{hashA3}` alone (the
query the per-file filter issues for file 1) but reports nothing for any
other query, in particular for the global set `{hashA3, hashB3}`.  The
run's attributed set and the filter-once-globally result differ, showing
the code filters per file, not once globally. -/

def hashA3 : String := "1111111111111111111111111111111111111111"

def hashB3 : String := "2222222222222222222222222222222222222222"

def hashS13 : String := "3333333333333333333333333333333333333333"

def hashS23 : String := "4444444444444444444444444444444444444444"

def conflictsC3 : List (String × List String) :=
  [("f1.txt", ["conflict line one"]), ("f2.txt", ["conflict line two"])]

def oracleC3 : Oracle :=
  { oracleTrivial with
    showFile := fun rev path =>
      if rev = "t" ∧ path = "f1.txt" then some ⟨0, "conflict line one", ""⟩
      else if rev = "s" ∧ path = "f1.txt" then some ⟨0, "source line one", ""⟩
      else if rev = "MB" ∧ path = "f1.txt" then some ⟨0, "base line one", ""⟩
      else if rev = "t" ∧ path = "f2.txt" then some ⟨0, "conflict line two", ""⟩
      else if rev = "s" ∧ path = "f2.txt" then some ⟨0, "source line two", ""⟩
      else if rev = "MB" ∧ path = "f2.txt" then some ⟨0, "base line two", ""⟩
      else none
    blame := fun br path =>
      if br = "t" ∧ path = "f1.txt" then some ⟨0, hashA3 ++ " 1 1 1\n\tconflict line one", ""⟩
      else if br = "s" ∧ path = "f1.txt" then some ⟨0, hashS13 ++ " 1 1 1\n\tsource line one", ""⟩
      else if br = "t" ∧ path = "f2.txt" then
        some ⟨0, hashB3 ++ " 1 1 1\n\tconflict line two", ""⟩
      else if br = "s" ∧ path = "f2.txt" then
        some ⟨0, hashS23 ++ " 1 1 1\n\tsource line two", ""⟩
      else none
    revListMerges := fun S => if S = {hashA3} then some ⟨0, hashA3, ""⟩ else some ⟨0, "", ""⟩
    mergeBase := fun _ _ => some ⟨0, "MB", ""⟩
    mergeTreeWrite := fun _ _ =>
      ⟨1, "CONFLICT (content): Merge conflict in f1.txt\n" ++
        "CONFLICT (content): Merge conflict in f2.txt", ""⟩
    mergeFile := fun _ _ tgt =>
      if tgt = "conflict line one" then
        ⟨1, "<<<<<<< o\nsource line one\n=======\nconflict line one\n>>>>>>> t", ""⟩
      else ⟨1, "<<<<<<< o\nsource line two\n=======\nconflict line two\n>>>>>>> t", ""⟩ }

/-- C3 counterexample: on the scenario oracle the run's output commit set
is `{hashB3}` while filtering the union of the per-file candidate sets
once yields `{hashA3, hashB3}` — the code's filtering is per file, not a
single pass over the accumulated global candidate set. -/
theorem c3_counterexample :
    find_conflicting_files_and_content oracleC3 "s" "t" = some conflictsC3 ∧
    accumulate_commits oracleC3 conflictsC3 "t" "s" = {hashB3} ∧
    spec_global_attributed oracleC3 conflictsC3 "t" "s" = {hashA3, hashB3} ∧
    accumulate_commits oracleC3 conflictsC3 "t" "s" ≠
      spec_global_attributed oracleC3 conflictsC3 "t" "s" :=
  ⟨by decide, by decide, by decide, by decide⟩

/-- The C3 witness oracle: as `oracleC3` but with a merge-detection oracle
consistent with "no commit is a merge". -/
def oracleC3w : Oracle :=
  { oracleC3 with revListMerges := fun _ => some ⟨0, "", ""⟩ }

/-- Witness for the C3 amended theorem at a concrete run: with the
consistent oracle the union of per-file filtered sets equals the single
global filtering pass. -/
theorem c3_witness :
    accumulate_commits oracleC3w conflictsC3 "t" "s" =
      spec_global_attributed oracleC3w conflictsC3 "t" "s" :=
  c3_filter_once_equivalence oracleC3w "t" "s" (fun _ => False)
    (fun S hS => ⟨⟨0, "", ""⟩, rfl, rfl, fun c hc => by
      rw [show pySplitlines (pyStrip (CmdResult.stdout ⟨0, "", ""⟩)) = ([] : List String)
        from rfl]
      simp⟩)
    conflictsC3

theorem parseCommitDetailsAux_message_mem :
    ∀ (n : ℕ) (lines : List String), lines.length ≤ n →
      ∀ p ∈ parseCommitDetailsAux lines, p.2.message ∈ lines ∧ p.2.sha = p.1 := by
  intro n
  induction n with
  | zero =>
    intro lines h p hp
    have hl : lines = [] := List.length_eq_zero.1 (Nat.le_zero.1 h)
    subst hl
    rw [show parseCommitDetailsAux [] = [] from rfl] at hp
    exact absurd hp (List.not_mem_nil p)
  | succ n ih =>
    intro lines h p hp
    cases lines with
    | nil =>
      rw [show parseCommitDetailsAux [] = [] from rfl] at hp
      exact absurd hp (List.not_mem_nil p)
    | cons line rest =>
      rw [parseCommitDetailsAux.eq_def] at hp
      dsimp only at hp
      by_cases h1 : pyStartsWith line "COMMIT_START " = true
      · rw [if_pos h1] at hp
        rcases rest with _ | ⟨m, _ | ⟨a, _ | ⟨d, _ | ⟨e, rest2⟩⟩⟩⟩
        · exact absurd hp (List.not_mem_nil p)
        · exact absurd hp (List.not_mem_nil p)
        · exact absurd hp (List.not_mem_nil p)
        · exact absurd hp (List.not_mem_nil p)
        · rcases List.mem_cons.1 hp with hp | hp
          · subst hp
            exact ⟨by simp, rfl⟩
          · have hlen : rest2.length ≤ n := by
              simp only [List.length_cons] at h
              omega
            have hrec := ih rest2 hlen p hp
            exact ⟨List.mem_cons_of_mem _ (List.mem_cons_of_mem _ (List.mem_cons_of_mem _
              (List.mem_cons_of_mem _ (List.mem_cons_of_mem _ hrec.1)))), hrec.2⟩
      · rw [if_neg h1] at hp
        have hlen : rest.length ≤ n := by
          simp only [List.length_cons] at h
          omega
        have hrec := ih rest hlen p hp
        exact ⟨List.mem_cons_of_mem _ hrec.1, hrec.2⟩

/-- C4 amended: the batch detail fetcher stores the subject verbatim: the
`message` of every produced CommitInfo is one of the lines of the log
output, unmodified — no truncation to a display length and no truncation
marker are applied (and the stored `sha` is the record's key). -/
theorem c4_subject_verbatim (o : Oracle) (S : Finset String) :
    ∀ p ∈ get_commit_details_batch o S,
      p.2.message ∈ pySplitlines ((runCommandValue (o.logNoWalk S)).getD "") ∧
      p.2.sha = p.1 := by
  intro p hp
  unfold get_commit_details_batch at hp
  split_ifs at hp with h1
  · exact absurd hp (List.not_mem_nil p)
  · rcases hlog : runCommandValue (o.logNoWalk S) with _ | out
    · rw [hlog] at hp
      exact absurd hp (List.not_mem_nil p)
    · rw [hlog] at hp
      dsimp only at hp
      split_ifs at hp with h2
      · have hrec := parseCommitDetailsAux_message_mem (pySplitlines out).length
          (pySplitlines out) (le_refl _) p hp
        exact ⟨hrec.1, hrec.2⟩
      · exact absurd hp (List.not_mem_nil p)

/-- The log output of the C4 scenario: one record whose subject line is
300 characters long. -/
def longSubjectC4 : String := (List.replicate 300 'x').asString

def hashC4 : String := "eeeeeeeeeeeeeeeeeeeeeeeeeeeeeeeeeeeeeeee"

def oracleC4 : Oracle :=
  { oracleTrivial with
    logNoWalk := fun _ => some ⟨0, "COMMIT_START " ++ hashC4 ++ "\n" ++ longSubjectC4 ++
      "\nAuthor Name <a@b.c>\n2024-01-02 03:04:05 +0000\nCOMMIT_END", ""⟩ }

set_option maxRecDepth 32768 in
/-- C4 counterexample: a 300-character subject is stored in the CommitInfo
unchanged — not truncated to any display length and with no truncation
marker appended. -/
theorem c4_counterexample :
    get_commit_details_batch oracleC4 {hashC4} =
      [(hashC4, ⟨longSubjectC4, "Author Name <a@b.c>", "2024-01-02 03:04:05 +0000", hashC4⟩)] ∧
    longSubjectC4.length = 300 :=
  ⟨by decide, by decide⟩

set_option maxRecDepth 32768 in
/-- Witness for the C4 amended theorem at the scenario: the stored
300-character subject is a verbatim line of the log output. -/
theorem c4_witness :
    longSubjectC4 ∈ pySplitlines ((runCommandValue (oracleC4.logNoWalk {hashC4})).getD "") ∧
    hashC4 = hashC4 :=
  c4_subject_verbatim oracleC4 {hashC4}
    (hashC4, ⟨longSubjectC4, "Author Name <a@b.c>", "2024-01-02 03:04:05 +0000", hashC4⟩)
    (by decide)

/-- C5 amended: a failing command whose stderr mentions (case-insensitively)
"not a git repository" has that stderr surfaced verbatim, but like every
other failure it is still recovered locally: `run_command` returns no data,
a failed merge-base makes the extractor return an empty conflicts dict (the
run then completes normally), and the run exits fatally (code 1) only when
the initial current-branch resolution fails. -/
theorem c5_failure_handling (r : CmdResult) (hfail : r.returncode ≠ 0) (o : Oracle)
    (s t arg : String) :
    (pyContains (pyLower r.stderr) "not a git repository" = true →
      runCommandPrints (some r) = [r.stderr]) ∧
    (pyContains (pyLower r.stderr) "not a git repository" = false →
      runCommandPrints (some r) = []) ∧
    runCommandValue (some r) = none ∧
    (o.mergeBase s t = some r → find_conflicting_files_and_content o s t = some []) ∧
    (o.currentBranch = some r → pyContains arg ".." = false →
      main_run o arg = .ok ⟨1, [], []⟩) := by
  have hval : runCommandValue (some r) = none := by
    unfold runCommandValue
    dsimp only
    rw [if_pos hfail]
  refine ⟨?_, ?_, hval, ?_, ?_⟩
  · intro hcont
    unfold runCommandPrints
    dsimp only
    rw [if_pos ⟨hfail, hcont⟩]
  · intro hcont
    unfold runCommandPrints
    dsimp only
    rw [if_neg fun hand => by rw [hand.2] at hcont; exact Bool.noConfusion hcont]
  · intro hmb
    unfold find_conflicting_files_and_content
    rw [hmb, hval]
    rfl
  · intro hcb hnc
    have hgcb : get_current_branch o = none := by
      unfold get_current_branch
      rw [hcb]
      dsimp only
      rw [if_pos hfail]
    unfold main_run parseBranchArg
    rw [if_neg fun hcc => by rw [hcc] at hnc; exact Bool.noConfusion hnc]
    dsimp only
    rw [hgcb]
    rfl

/-- The stderr text of the C5 scenario. -/
def notRepoMsgC5 : String :=
  "fatal: not a git repository (or any of the parent directories): .git"

/-- C5 counterexample oracle: `git merge-base` fails with the
not-a-repository message; the current-branch command also fails the same
way (used by the witness for the fatal case). -/
def oracleC5 : Oracle :=
  { oracleTrivial with
    mergeBase := fun _ _ => some ⟨128, "", notRepoMsgC5⟩
    currentBranch := some ⟨128, "", notRepoMsgC5⟩ }

/-- C5 counterexample: with an "a..b" argument the failing merge-base
command prints its not-a-repository stderr verbatim, yet the run does not
halt fatally: it recovers the failure as an empty conflicts dict and
completes normally with exit code 0 ("No conflicts found."). -/
theorem c5_counterexample :
    runCommandPrints (oracleC5.mergeBase "a" "b") = [notRepoMsgC5] ∧
    main_run oracleC5 "a..b" = .ok ⟨0, [], []⟩ :=
  ⟨by decide, by decide⟩

/-- Witness for the C5 amended theorem at the scenario: message surfaced,
value recovered as none, extractor empty, and exit code 1 exactly in the
current-branch case. -/
theorem c5_witness :
    runCommandPrints (some ⟨128, "", notRepoMsgC5⟩) = [notRepoMsgC5] ∧
    runCommandValue (some ⟨128, "", notRepoMsgC5⟩) = none ∧
    find_conflicting_files_and_content oracleC5 "a" "b" = some [] ∧
    main_run oracleC5 "x" = .ok ⟨1, [], []⟩ := by
  have h := c5_failure_handling ⟨128, "", notRepoMsgC5⟩ (by decide) oracleC5 "a" "b" "x"
  exact ⟨h.1 (by decide), h.2.2.1, h.2.2.2.1 rfl, h.2.2.2.2 rfl (by decide)⟩

/-- C6 amended: in the modern-format path, every path parsed from a
CONFLICT line is retained in the extractor's output, paired with whatever
`find_actual_conflict_lines` yields — an empty list when no method
recovers content — rather than being dropped; downstream, an empty
content list produces no attribution. -/
theorem c6_empty_content_kept (o : Oracle) (s t mb : String)
    (hmb : runCommandValue (o.mergeBase s t) = some mb) (hmbne : mb ≠ "")
    (hrc : (o.mergeTreeWrite s t).returncode = 1)
    (hout : (o.mergeTreeWrite s t).stdout ≠ "")
    (hne : dedupKeepFirst ((pySplitlines (o.mergeTreeWrite s t).stdout).filterMap
      extractConflictFilename) ≠ []) :
    find_conflicting_files_and_content o s t =
      some ((dedupKeepFirst ((pySplitlines (o.mergeTreeWrite s t).stdout).filterMap
        extractConflictFilename)).map fun f => (f, find_actual_conflict_lines o f s t mb)) ∧
    (∀ fp tb sb, get_commits_for_conflicting_lines o fp [] tb sb = ∅) := by
  constructor
  · unfold find_conflicting_files_and_content
    rw [hmb]
    dsimp only
    split_ifs with h1 h2
    · exact absurd h1 (by simp [optTruthy, hmbne])
    · rfl
    · exact absurd ⟨hrc, hout⟩ h2
  · intro fp tb sb
    unfold get_commits_for_conflicting_lines
    rw [if_neg (by simp)]

/-- C6 counterexample oracle: the tree-level check reports a conflict in
`a.txt`, but no snapshot content is available, so no extraction method
yields any conflicting lines. -/
def oracleC6 : Oracle :=
  { oracleTrivial with
    mergeBase := fun _ _ => some ⟨0, "MB", ""⟩
    mergeTreeWrite := fun _ _ => ⟨1, "CONFLICT (content): Merge conflict in a.txt", ""⟩ }

/-- C6 counterexample: the path whose extraction yields no content is kept
in the extractor's output with an empty line list (and still listed by the
completed run), not dropped. -/
theorem c6_counterexample :
    find_conflicting_files_and_content oracleC6 "s" "t" = some [("a.txt", [])] ∧
    main_run oracleC6 "s..t" = .ok ⟨0, [("a.txt", [])], []⟩ :=
  ⟨by decide, by decide⟩

/-- Witness for the C6 amended theorem at the scenario. -/
theorem c6_witness :
    find_conflicting_files_and_content oracleC6 "s" "t" =
      some ((dedupKeepFirst ((pySplitlines (oracleC6.mergeTreeWrite "s" "t").stdout).filterMap
        extractConflictFilename)).map fun f =>
          (f, find_actual_conflict_lines oracleC6 f "s" "t" "MB")) ∧
    (∀ fp tb sb, get_commits_for_conflicting_lines oracleC6 fp [] tb sb = ∅) :=
  c6_empty_content_kept oracleC6 "s" "t" "MB" (by decide) (by decide) (by decide) (by decide)
    (by decide)

end GitMediate
